import Mathlib

/-!
Verification of the recording-session controller of the `record-and-connect`
repository (`src/components/RecordingStudio.tsx` and the extended variant with
transcript support).

The controller is shallowly embedded as a state machine.  Binary buffers
(`Blob` parts) are byte lists; browser object references held in React refs
(`mediaRecorderRef`, `streamRef`, `chunksRef`, `intervalRef`) become explicit
fields of the `Studio` state.  Media tracks live in a pool `tracks` indexed by
natural numbers so that a track can still be inspected after the stream
reference is dropped; `MediaStreamTrack.stop()` sets the `stopped` flag of the
corresponding pool entry.  Interval timers are likewise identified by numbers:
`setInterval` allocates a fresh identifier and adds it to `liveTimers`,
`clearInterval` removes it, and a tick callback of timer `t` fires (increments
`duration`) only while `t` is live.  Asynchronous callbacks (`ondataavailable`,
`onstop`, interval ticks) are delivered as explicit events of the machine;
since `MediaRecorder.stop()` is guaranteed to be followed by the `onstop`
delivery, `stopRecording` is modelled with the `onstop` effects composed in.
-/

/-- A binary buffer delivered by one `dataavailable` notification. -/
abbrev Chunk := List Nat

/-- A finalized binary object (`Blob`): the bytes it owns. -/
abbrev Blob := List Nat

/-- The state of the `MediaRecorder` object. -/
inductive MRState where
  | inactive
  | recording
  | paused
deriving DecidableEq, Repr

/-- The capture source selector (`captureMode` in the source). -/
inductive CaptureMode where
  | screen
  | window
  | camera
deriving DecidableEq, Repr

/-- The session status of the specification: Idle, Recording, Paused, Stopped. -/
inductive Status where
  | idle
  | recording
  | paused
  | stopped
deriving DecidableEq, Repr

/-- A media track.  `stopped` records whether `track.stop()` has been called. -/
structure Track where
  stopped : Bool
deriving DecidableEq, Repr

/-- Outcome environment for one start request: whether each browser
acquisition call succeeds and how many tracks each acquired stream carries. -/
structure AcqEnv where
  displayOk : Bool
  micOk : Bool
  cameraOk : Bool
  displayTrackCount : Nat
  cameraTrackCount : Nat
deriving DecidableEq, Repr

/-- The whole controller state: the React `recordingState` fields
(`isRecording`, `isPaused`, `duration`, `recordedBlob`) together with the refs
(`mediaRecorderRef`, `streamRef`, `chunksRef`, `intervalRef`), a pool of all
tracks ever acquired, the set of live interval timers, and a counter for fresh
timer identifiers. -/
structure Studio where
  isRecording : Bool
  isPaused : Bool
  duration : Nat
  recordedBlob : Option Blob
  mediaRecorderRef : Option MRState
  streamRef : Option (List Nat)
  chunksRef : List Chunk
  intervalRef : Option Nat
  liveTimers : List Nat
  nextTimer : Nat
  tracks : List Track
deriving DecidableEq, Repr

/-- The initial component state (lines 28-41 of the source). -/
def initialStudio : Studio where
  isRecording := false
  isPaused := false
  duration := 0
  recordedBlob := none
  mediaRecorderRef := none
  streamRef := none
  chunksRef := []
  intervalRef := none
  liveTimers := []
  nextTimer := 0
  tracks := []

/-- `startTimer` (source lines 51-55): `intervalRef.current = setInterval(...)`.
A fresh interval is installed and the ref overwritten; nothing checks for or
clears a previously installed interval, so a prior live timer stays live. -/
def startTimer (s : Studio) : Studio :=
  { s with intervalRef := some s.nextTimer
           liveTimers := s.nextTimer :: s.liveTimers
           nextTimer := s.nextTimer + 1 }

/-- `stopTimer` (source lines 57-62): if the ref holds an interval, clear it
and null the ref. -/
def stopTimer (s : Studio) : Studio :=
  match s.intervalRef with
  | some t => { s with liveTimers := s.liveTimers.erase t, intervalRef := none }
  | none => s

/-- One firing of the interval callback installed by `startTimer` (source line
52-54): `setRecordingState(prev => (\x7b ...prev, duration: prev.duration + 1 \x7d))`.
A cleared interval no longer fires, so the increment happens only when the
timer identifier is still live. -/
def tickFire (t : Nat) (s : Studio) : Studio :=
  if t ∈ s.liveTimers then { s with duration := s.duration + 1 } else s

/-- `mediaRecorder.ondataavailable` (source lines 113-117): push the chunk
onto `chunksRef` only when `event.data.size > 0`. -/
def ondataavailable (c : Chunk) (s : Studio) : Studio :=
  if 0 < c.length then { s with chunksRef := s.chunksRef ++ [c] } else s

/-- Helper for `stopTracksAt`: walk the pool, stopping the tracks whose index
(offset by `k`) is listed. -/
def stopTracksFrom (ids : List Nat) (k : Nat) : List Track → List Track
  | [] => []
  | tr :: rest =>
      (if k ∈ ids then { stopped := true } else tr) :: stopTracksFrom ids (k + 1) rest

/-- `stream.getTracks().forEach(track => track.stop())`: every track of the
referenced stream gets its `stopped` flag set in the pool. -/
def stopTracksAt (ids : List Nat) (tracks : List Track) : List Track :=
  stopTracksFrom ids 0 tracks

/-- `mediaRecorder.onstop` (source lines 119-128): build the final blob from
all accumulated chunks in arrival order, then stop every track of the stream
held in `streamRef` and null the ref. -/
def onstop (s : Studio) : Studio :=
  let s1 := { s with recordedBlob := some s.chunksRef.flatten }
  match s1.streamRef with
  | some ids => { s1 with tracks := stopTracksAt ids s1.tracks, streamRef := none }
  | none => s1

/-- Tail of a successful `startRecording` (source lines 104-139): store the
stream, reset `chunksRef`, create the recorder and start it, set the React
state for a fresh session, and start the timer. -/
def beginSession (ids : List Nat) (s : Studio) : Studio :=
  let s1 := { s with streamRef := some ids
                     chunksRef := []
                     mediaRecorderRef := some MRState.recording }
  let s2 := { s1 with isRecording := true
                      isPaused := false
                      duration := 0
                      recordedBlob := none }
  startTimer s2

/-- `startRecording` (source lines 79-154), with the acquisition outcomes
supplied by `env`.  Screen/window capture first awaits `getDisplayMedia`; if
the microphone is enabled it then awaits `getUserMedia` and adds the audio
track to the stream.  Any acquisition failure lands in the `catch` block,
which only reports an error (a toast) and leaves every field as it is — in
particular a display stream acquired before a failing microphone request
keeps its tracks live in the pool, unreferenced by any session field. -/
def startRecording (mode : CaptureMode) (micEnabled : Bool) (env : AcqEnv)
    (s : Studio) : Studio :=
  if mode = CaptureMode.screen ∨ mode = CaptureMode.window then
    if env.displayOk then
      let firstId := s.tracks.length
      let displayIds := List.range' firstId env.displayTrackCount
      let s1 : Studio :=
        { s with tracks := s.tracks ++ List.replicate env.displayTrackCount { stopped := false } }
      if micEnabled then
        if env.micOk then
          let audioId := s1.tracks.length
          let s2 := { s1 with tracks := s1.tracks ++ [{ stopped := false }] }
          beginSession (displayIds ++ [audioId]) s2
        else
          s1
      else
        beginSession displayIds s1
    else
      s
  else
    if env.cameraOk then
      let firstId := s.tracks.length
      let camIds := List.range' firstId env.cameraTrackCount
      let s1 : Studio :=
        { s with tracks := s.tracks ++ List.replicate env.cameraTrackCount { stopped := false } }
      beginSession camIds s1
    else
      s

/-- Whether the acquisition environment lets a start request with the given
mode and microphone choice succeed. -/
def acqOk (mode : CaptureMode) (micEnabled : Bool) (env : AcqEnv) : Bool :=
  if mode = CaptureMode.camera then env.cameraOk
  else env.displayOk && (!micEnabled || env.micOk)

/-- `pauseRecording` (source lines 156-170): guarded on a present recorder and
`isRecording`; toggles between the pause branch (recorder paused, timer
stopped, `isPaused := true`) and the resume branch (recorder resumed, a timer
started, `isPaused := false`).  The branch taken is what distinguishes a
pause request (`isPaused = false`) from a resume request (`isPaused = true`). -/
def pauseRecording (s : Studio) : Studio :=
  match s.mediaRecorderRef with
  | some _ =>
      if s.isRecording then
        if s.isPaused then
          let s1 := { s with mediaRecorderRef := some MRState.recording }
          let s2 := startTimer s1
          { s2 with isPaused := false }
        else
          let s1 := { s with mediaRecorderRef := some MRState.paused }
          let s2 := stopTimer s1
          { s2 with isPaused := true }
      else s
  | none => s

/-- `stopRecording` (source lines 172-187): guarded on a present recorder;
calls `mediaRecorder.stop()`, stops the timer and clears the recording flags.
The recorder then delivers `onstop`, whose effects (final blob, track
release) are composed here since they are guaranteed to follow. -/
def stopRecording (s : Studio) : Studio :=
  match s.mediaRecorderRef with
  | some _ =>
      let s1 := { s with mediaRecorderRef := some MRState.inactive }
      let s2 := stopTimer s1
      let s3 := { s2 with isRecording := false, isPaused := false }
      onstop s3
  | none => s

/-- `downloadRecording` (source lines 189-205): when a blob exists, an object
URL for it is created and a download of exactly those bytes is triggered; the
React state is not written.  Returns the possibly produced file alongside the
unchanged state. -/
def downloadRecording (s : Studio) : Studio × Option Blob :=
  match s.recordedBlob with
  | some b => (s, some b)
  | none => (s, none)

/-- The specification status of a controller state.  The source renders
Recording/Paused from the two flags; with no session active, a state holding
a finalized blob is the spec status Stopped, otherwise Idle. -/
def status (s : Studio) : Status :=
  if s.isRecording = true then
    if s.isPaused = true then Status.paused else Status.recording
  else if s.recordedBlob.isSome = true then Status.stopped
  else Status.idle

/-- The user-interface events that can reach the controller.  Ticks and data
notifications are delivered by the browser. -/
inductive Ev where
  | start (mode : CaptureMode) (micEnabled : Bool) (env : AcqEnv)
  | pauseResume
  | stop
  | tick (t : Nat)
  | data (c : Chunk)

/-- Event semantics: each event runs the corresponding source handler. -/
def step : Ev → Studio → Studio
  | Ev.start mode micEnabled env, s => startRecording mode micEnabled env s
  | Ev.pauseResume, s => pauseRecording s
  | Ev.stop, s => stopRecording s
  | Ev.tick t, s => tickFire t s
  | Ev.data c, s => ondataavailable c s

/-- When an event can occur.  The Start button is rendered only while
`isRecording` is false, and the Pause/Resume and Stop buttons only while it is
true (source lines 254-292).  Ticks may always be attempted (a dead timer
simply does not fire), and the recorder emits `dataavailable` only while it is
in the recording state. -/
def enabled : Ev → Studio → Prop
  | Ev.start _ _ _, s => s.isRecording = false
  | Ev.pauseResume, s => s.isRecording = true
  | Ev.stop, s => s.isRecording = true
  | Ev.tick _, _ => True
  | Ev.data _, s => s.mediaRecorderRef = some MRState.recording

instance (e : Ev) (s : Studio) : Decidable (enabled e s) :=
  match e with
  | Ev.start _ _ _ => inferInstanceAs (Decidable (s.isRecording = false))
  | Ev.pauseResume => inferInstanceAs (Decidable (s.isRecording = true))
  | Ev.stop => inferInstanceAs (Decidable (s.isRecording = true))
  | Ev.tick _ => inferInstanceAs (Decidable True)
  | Ev.data _ => inferInstanceAs (Decidable (s.mediaRecorderRef = some MRState.recording))

/-- States reachable from the initial component state through enabled events. -/
inductive Reach : Studio → Prop where
  | init : Reach initialStudio
  | next (e : Ev) {s : Studio} : Reach s → enabled e s → Reach (step e s)

/-- The inductive invariant of the controller: the recording flags, the blob,
the recorder and stream refs and the timer bookkeeping stay consistent. -/
def SessionInv (s : Studio) : Prop :=
  (s.isPaused = true → s.isRecording = true) ∧
  (s.isRecording = true → s.recordedBlob = none) ∧
  (s.isRecording = false → s.recordedBlob = none → s.mediaRecorderRef = none) ∧
  s.liveTimers = s.intervalRef.toList ∧
  (s.intervalRef.isSome = true → s.isRecording = true ∧ s.isPaused = false) ∧
  (∀ c ∈ s.chunksRef, 0 < c.length) ∧
  (∀ i ∈ s.streamRef.getD [], i < s.tracks.length) ∧
  (s.isRecording = true → s.streamRef.isSome = true) ∧
  (s.isRecording = true → s.mediaRecorderRef.isSome = true)

/-- The visible slice of a start request that has not completed yet: clicking
the Start button (rendered whenever `isRecording` is false) runs the prefix of
`startRecording` before its first `await`, which sets no flag at all, so its
only observable effect is one more capture acquisition in flight. -/
structure StartFlow where
  isRecording : Bool
  pendingAcquisitions : Nat
deriving DecidableEq, Repr

/-- One Start click: `startRecording` is entered and immediately awaits
`getDisplayMedia`/`getUserMedia`; no field of the component state is written
before that await (source lines 79-102). -/
def startClick (f : StartFlow) : StartFlow :=
  { f with pendingAcquisitions := f.pendingAcquisitions + 1 }

/-- Whether the Start button is rendered (source line 254). -/
def startEnabled (f : StartFlow) : Bool :=
  !f.isRecording

/-- The state touched by the transcript feature of the extended component
(`src/unnamed/part_000`). -/
structure TranscriptState where
  transcript : String
  recordedBlob : Option Blob
  meetingPoints : List String
deriving DecidableEq, Repr

/-- The hard-coded sample transcript of the extended component (lines 286-296,
identical to the text produced by its mock `transcribeAudio`). -/
def sampleTranscript : String :=
  "Welcome to today\x27s meeting. We discussed the following agenda items:\n\nFirst, we reviewed the quarterly performance metrics and found that revenue increased by 15% compared to last quarter.\n\nSecond, we outlined the upcoming product launch strategy for our new mobile application, which is scheduled for release in Q2.\n\nThird, we addressed team restructuring plans and the hiring of three new developers for the backend team.\n\nFinally, we established action items for the next sprint and set deadlines for deliverables.\n\nThank you all for your participation and productive discussions."

/-- `downloadTranscript` of the extended component (lines 281-339): with an
empty transcript it downloads a file made of a header, the timestamp `now`
and the hard-coded sample text; otherwise the stored transcript is used.  In
both branches the component state is left untouched.  Returns the downloaded
file content alongside the unchanged state. -/
def downloadTranscript (now : String) (st : TranscriptState) :
    TranscriptState × Option String :=
  if st.transcript = "" then
    (st, some ("Meeting Transcript\nGenerated on: " ++ now ++ "\n\n" ++ sampleTranscript))
  else
    (st, some ("Meeting Transcript\nGenerated on: " ++ now ++ "\n\n" ++ st.transcript))

/-- Acquisition environment for the demonstration states: everything granted,
one display track, one camera track. -/
def demoEnv : AcqEnv where
  displayOk := true
  micOk := true
  cameraOk := true
  displayTrackCount := 1
  cameraTrackCount := 1

/-- Acquisition environment where the screen share is granted but the
microphone request is denied. -/
def micDeniedEnv : AcqEnv where
  displayOk := true
  micOk := false
  cameraOk := false
  displayTrackCount := 2
  cameraTrackCount := 0

/-- A reachable state in the middle of a recording session. -/
def sRec : Studio :=
  step (Ev.start CaptureMode.screen false demoEnv) initialStudio

/-- A reachable state with one non-empty chunk collected. -/
def sData : Studio :=
  step (Ev.data [7, 7]) sRec

/-- A reachable paused state. -/
def sPaused : Studio :=
  step Ev.pauseResume sData

/-- A reachable stopped state. -/
def sStop : Studio :=
  step Ev.stop sData

theorem length_stopTracksFrom (ids : List Nat) (k : Nat) (l : List Track) :
    (stopTracksFrom ids k l).length = l.length := by
  induction l generalizing k with
  | nil => rfl
  | cons a rest ih => simp [stopTracksFrom, ih]

theorem stopped_stopTracksFrom (ids : List Nat) (k : Nat) (l : List Track)
    (i : Nat) (hi : i < (stopTracksFrom ids k l).length) (hm : k + i ∈ ids) :
    ((stopTracksFrom ids k l).get ⟨i, hi⟩).stopped = true := by
  induction l generalizing k i with
  | nil => simp [stopTracksFrom] at hi
  | cons a rest ih =>
    cases i with
    | zero =>
      have hk : k ∈ ids := by simpa using hm
      simp [stopTracksFrom, hk]
    | succ j =>
      have hm' : (k + 1) + j ∈ ids := by
        have he : k + (j + 1) = (k + 1) + j := by omega
        rwa [he] at hm
      have hi' : j < (stopTracksFrom ids (k + 1) rest).length := by
        have := hi
        simp only [stopTracksFrom, List.length_cons] at this
        omega
      simpa [stopTracksFrom] using ih (k + 1) j hi' hm'

theorem stopped_stopTracksAt (ids : List Nat) (tracks : List Track)
    (i : Nat) (hi : i < (stopTracksAt ids tracks).length) (hm : i ∈ ids) :
    ((stopTracksAt ids tracks).get ⟨i, hi⟩).stopped = true :=
  stopped_stopTracksFrom ids 0 tracks i hi (by simpa using hm)

theorem sessionInv_init : SessionInv initialStudio := by
  simp [SessionInv, initialStudio]

theorem sessionInv_tick (t : Nat) (s : Studio) (h : SessionInv s) :
    SessionInv (tickFire t s) := by
  unfold tickFire
  split
  · exact h
  · exact h

theorem sessionInv_data (c : Chunk) (s : Studio) (h : SessionInv s) :
    SessionInv (ondataavailable c s) := by
  obtain ⟨h1, h2, h3, h4, h5, h6, h7, h8, h9⟩ := h
  unfold ondataavailable
  split
  · rename_i hc
    refine ⟨h1, h2, h3, h4, h5, ?_, h7, h8, h9⟩
    intro x hx
    rcases List.mem_append.mp hx with hx | hx
    · exact h6 x hx
    · rw [List.mem_singleton.mp hx]
      exact hc
  · exact ⟨h1, h2, h3, h4, h5, h6, h7, h8, h9⟩

theorem sessionInv_pause (s : Studio) (h : SessionInv s) :
    SessionInv (pauseRecording s) := by
  obtain ⟨h1, h2, h3, h4, h5, h6, h7, h8, h9⟩ := h
  cases hmr : s.mediaRecorderRef with
  | none =>
      have hid : pauseRecording s = s := by simp [pauseRecording, hmr]
      rw [hid]
      exact ⟨h1, h2, h3, h4, h5, h6, h7, h8, h9⟩
  | some mr =>
      cases hrec : s.isRecording with
      | false =>
          have hid : pauseRecording s = s := by simp [pauseRecording, hmr, hrec]
          rw [hid]
          exact ⟨h1, h2, h3, h4, h5, h6, h7, h8, h9⟩
      | true =>
          cases hp : s.isPaused with
          | true =>
              have hnone : s.intervalRef = none := by
                cases hIr : s.intervalRef with
                | none => rfl
                | some t =>
                    have := (h5 (by rw [hIr]; rfl)).2
                    rw [hp] at this
                    cases this
              have hLT : s.liveTimers = [] := by rw [h4, hnone]; rfl
              have hstep : pauseRecording s =
                  { s with mediaRecorderRef := some MRState.recording
                           isPaused := false
                           intervalRef := some s.nextTimer
                           liveTimers := s.nextTimer :: s.liveTimers
                           nextTimer := s.nextTimer + 1 } := by
                simp [pauseRecording, startTimer, hmr, hrec, hp]
              rw [hstep]
              refine ⟨fun hf => hrec, fun _ => h2 hrec, ?_, ?_,
                fun _ => ⟨hrec, rfl⟩, h6, h7, fun _ => h8 hrec, fun _ => rfl⟩
              · intro hf
                rw [hrec] at hf
                cases hf
              · show s.nextTimer :: s.liveTimers = [s.nextTimer]
                rw [hLT]
          | false =>
              cases hIr : s.intervalRef with
              | some t =>
                  have hLT : s.liveTimers = [t] := by rw [h4, hIr]; rfl
                  have hstep : pauseRecording s =
                      { s with mediaRecorderRef := some MRState.paused
                               isPaused := true
                               liveTimers := s.liveTimers.erase t
                               intervalRef := none } := by
                    simp [pauseRecording, stopTimer, hmr, hrec, hp, hIr]
                  rw [hstep]
                  refine ⟨fun _ => hrec, fun _ => h2 hrec, ?_, ?_, ?_,
                    h6, h7, fun _ => h8 hrec, fun _ => rfl⟩
                  · intro hf
                    rw [hrec] at hf
                    cases hf
                  · show s.liveTimers.erase t = ([] : List Nat)
                    rw [hLT]
                    simp
                  · intro hs
                    cases hs
              | none =>
                  have hstep : pauseRecording s =
                      { s with mediaRecorderRef := some MRState.paused
                               isPaused := true } := by
                    simp [pauseRecording, stopTimer, hmr, hrec, hp, hIr]
                  rw [hstep]
                  refine ⟨fun _ => hrec, fun _ => h2 hrec, ?_, h4, ?_,
                    h6, h7, fun _ => h8 hrec, fun _ => rfl⟩
                  · intro hf
                    rw [hrec] at hf
                    cases hf
                  · intro hs
                    rw [hIr] at hs
                    cases hs

theorem sessionInv_beginSession (ids : List Nat) (s : Studio)
    (hLT : s.liveTimers = [])
    (hids : ∀ i ∈ ids, i < s.tracks.length) :
    SessionInv (beginSession ids s) := by
  have hstep : beginSession ids s =
      { s with streamRef := some ids
               chunksRef := []
               mediaRecorderRef := some MRState.recording
               isRecording := true
               isPaused := false
               duration := 0
               recordedBlob := none
               intervalRef := some s.nextTimer
               liveTimers := s.nextTimer :: s.liveTimers
               nextTimer := s.nextTimer + 1 } := by
    simp [beginSession, startTimer]
  rw [hstep]
  refine ⟨fun _ => rfl, fun _ => rfl, ?_, ?_, fun _ => ⟨rfl, rfl⟩, ?_, ?_,
    fun _ => rfl, fun _ => rfl⟩
  · intro hf
    cases hf
  · show s.nextTimer :: s.liveTimers = [s.nextTimer]
    rw [hLT]
  · intro c hc
    simp at hc
  · intro i hi
    exact hids i (by simpa using hi)

theorem sessionInv_start (mode : CaptureMode) (micEnabled : Bool) (env : AcqEnv)
    (s : Studio) (hrec : s.isRecording = false) (h : SessionInv s) :
    SessionInv (startRecording mode micEnabled env s) := by
  obtain ⟨h1, h2, h3, h4, h5, h6, h7, h8, h9⟩ := h
  have hnone : s.intervalRef = none := by
    cases hIr : s.intervalRef with
    | none => rfl
    | some t =>
        have := (h5 (by rw [hIr]; rfl)).1
        rw [hrec] at this
        cases this
  have hLT : s.liveTimers = [] := by rw [h4, hnone]; rfl
  have hScreenish : ∀ hsw : mode = CaptureMode.screen ∨ mode = CaptureMode.window,
      SessionInv (startRecording mode micEnabled env s) := by
    intro hsw
    cases hd : env.displayOk with
    | false =>
        have hid : startRecording mode micEnabled env s = s := by
          rcases hsw with rfl | rfl <;> simp [startRecording, hd]
        rw [hid]
        exact ⟨h1, h2, h3, h4, h5, h6, h7, h8, h9⟩
    | true =>
        cases micEnabled with
        | false =>
            have hstep : startRecording mode false env s =
                beginSession (List.range' s.tracks.length env.displayTrackCount)
                  { s with tracks :=
                      s.tracks ++ List.replicate env.displayTrackCount { stopped := false } } := by
              rcases hsw with rfl | rfl <;> simp [startRecording, hd]
            rw [hstep]
            refine sessionInv_beginSession _ _ hLT ?_
            intro i hi
            have := List.mem_range'_1.mp hi
            simp only [List.length_append, List.length_replicate]
            omega
        | true =>
            cases hmic : env.micOk with
            | false =>
                have hstep : startRecording mode true env s =
                    { s with tracks :=
                        s.tracks ++ List.replicate env.displayTrackCount { stopped := false } } := by
                  rcases hsw with rfl | rfl <;> simp [startRecording, hd, hmic]
                rw [hstep]
                refine ⟨h1, h2, h3, h4, h5, h6, ?_, h8, h9⟩
                intro i hi
                have := h7 i hi
                simp only [List.length_append, List.length_replicate]
                omega
            | true =>
                have hstep : startRecording mode true env s =
                    beginSession
                      (List.range' s.tracks.length env.displayTrackCount ++
                        [(s.tracks ++ List.replicate env.displayTrackCount
                            ({ stopped := false } : Track)).length])
                      { s with tracks :=
                          (s.tracks ++ List.replicate env.displayTrackCount
                            ({ stopped := false } : Track))
                            ++ [{ stopped := false }] } := by
                  rcases hsw with rfl | rfl <;> simp [startRecording, hd, hmic]
                rw [hstep]
                refine sessionInv_beginSession _ _ hLT ?_
                intro i hi
                simp only [List.length_append, List.length_replicate, List.length_cons,
                  List.length_nil] at *
                rcases List.mem_append.mp hi with hi | hi
                · have := List.mem_range'_1.mp hi
                  omega
                · have := List.mem_singleton.mp hi
                  omega
  cases mode with
  | screen => exact hScreenish (Or.inl rfl)
  | window => exact hScreenish (Or.inr rfl)
  | camera =>
      cases hc : env.cameraOk with
      | false =>
          have hid : startRecording CaptureMode.camera micEnabled env s = s := by
            simp [startRecording, hc]
          rw [hid]
          exact ⟨h1, h2, h3, h4, h5, h6, h7, h8, h9⟩
      | true =>
          have hstep : startRecording CaptureMode.camera micEnabled env s =
              beginSession (List.range' s.tracks.length env.cameraTrackCount)
                { s with tracks :=
                    s.tracks ++ List.replicate env.cameraTrackCount { stopped := false } } := by
            simp [startRecording, hc]
          rw [hstep]
          refine sessionInv_beginSession _ _ hLT ?_
          intro i hi
          have := List.mem_range'_1.mp hi
          simp only [List.length_append, List.length_replicate]
          omega

theorem stopRecording_eq_rec (s : Studio) (mr : MRState) (t : Nat) (ids : List Nat)
    (hmr : s.mediaRecorderRef = some mr) (hIr : s.intervalRef = some t)
    (hSR : s.streamRef = some ids) :
    stopRecording s =
      { s with mediaRecorderRef := some MRState.inactive
               intervalRef := none
               liveTimers := s.liveTimers.erase t
               isRecording := false
               isPaused := false
               recordedBlob := some s.chunksRef.flatten
               tracks := stopTracksAt ids s.tracks
               streamRef := none } := by
  simp [stopRecording, stopTimer, onstop, hmr, hIr, hSR]

theorem stopRecording_eq_paused (s : Studio) (mr : MRState) (ids : List Nat)
    (hmr : s.mediaRecorderRef = some mr) (hIr : s.intervalRef = none)
    (hSR : s.streamRef = some ids) :
    stopRecording s =
      { s with mediaRecorderRef := some MRState.inactive
               isRecording := false
               isPaused := false
               recordedBlob := some s.chunksRef.flatten
               tracks := stopTracksAt ids s.tracks
               streamRef := none } := by
  simp [stopRecording, stopTimer, onstop, hmr, hIr, hSR]

theorem sessionInv_stop (s : Studio) (h : SessionInv s) :
    SessionInv (stopRecording s) := by
  obtain ⟨h1, h2, h3, h4, h5, h6, h7, h8, h9⟩ := h
  cases hmr : s.mediaRecorderRef with
  | none =>
      have hid : stopRecording s = s := by simp [stopRecording, hmr]
      rw [hid]
      exact ⟨h1, h2, h3, h4, h5, h6, h7, h8, h9⟩
  | some mr =>
      cases hIr : s.intervalRef with
      | some t =>
          have hLT : s.liveTimers = [t] := by rw [h4, hIr]; rfl
          cases hSR : s.streamRef with
          | some ids =>
              rw [stopRecording_eq_rec s mr t ids hmr hIr hSR]
              refine ⟨?_, ?_, ?_, ?_, ?_, h6, ?_, ?_, ?_⟩
              · intro hf
                cases hf
              · intro hf
                cases hf
              · intro hf hb
                cases hb
              · show s.liveTimers.erase t = ([] : List Nat)
                rw [hLT]
                simp
              · intro hs
                cases hs
              · intro i hi
                simp at hi
              · intro hf
                cases hf
              · intro hf
                cases hf
          | none =>
              have hstep : stopRecording s =
                  { s with mediaRecorderRef := some MRState.inactive
                           intervalRef := none
                           liveTimers := s.liveTimers.erase t
                           isRecording := false
                           isPaused := false
                           recordedBlob := some s.chunksRef.flatten } := by
                simp [stopRecording, stopTimer, onstop, hmr, hIr, hSR]
              rw [hstep]
              refine ⟨?_, ?_, ?_, ?_, ?_, h6, h7, ?_, ?_⟩
              · intro hf
                cases hf
              · intro hf
                cases hf
              · intro hf hb
                cases hb
              · show s.liveTimers.erase t = ([] : List Nat)
                rw [hLT]
                simp
              · intro hs
                cases hs
              · intro hf
                cases hf
              · intro hf
                cases hf
      | none =>
          have hLT : s.liveTimers = [] := by rw [h4, hIr]; rfl
          cases hSR : s.streamRef with
          | some ids =>
              rw [stopRecording_eq_paused s mr ids hmr hIr hSR]
              refine ⟨?_, ?_, ?_, ?_, ?_, h6, ?_, ?_, ?_⟩
              · intro hf
                cases hf
              · intro hf
                cases hf
              · intro hf hb
                cases hb
              · show s.liveTimers = s.intervalRef.toList
                exact h4
              · intro hs
                rw [hIr] at hs
                cases hs
              · intro i hi
                simp at hi
              · intro hf
                cases hf
              · intro hf
                cases hf
          | none =>
              have hstep : stopRecording s =
                  { s with mediaRecorderRef := some MRState.inactive
                           isRecording := false
                           isPaused := false
                           recordedBlob := some s.chunksRef.flatten } := by
                simp [stopRecording, stopTimer, onstop, hmr, hIr, hSR]
              rw [hstep]
              refine ⟨?_, ?_, ?_, ?_, ?_, h6, h7, ?_, ?_⟩
              · intro hf
                cases hf
              · intro hf
                cases hf
              · intro hf hb
                cases hb
              · show s.liveTimers = s.intervalRef.toList
                exact h4
              · intro hs
                rw [hIr] at hs
                cases hs
              · intro hf
                cases hf
              · intro hf
                cases hf

theorem sessionInv_step (e : Ev) (s : Studio) (he : enabled e s) (h : SessionInv s) :
    SessionInv (step e s) := by
  cases e with
  | start mode micEnabled env => exact sessionInv_start mode micEnabled env s he h
  | pauseResume => exact sessionInv_pause s h
  | stop => exact sessionInv_stop s h
  | tick t => exact sessionInv_tick t s h
  | data c => exact sessionInv_data c s h

theorem reach_inv {s : Studio} (h : Reach s) : SessionInv s := by
  induction h with
  | init => exact sessionInv_init
  | next e a he ih => exact sessionInv_step e _ he ih

theorem startRecording_blob (mode : CaptureMode) (micEnabled : Bool) (env : AcqEnv)
    (s : Studio) :
    (startRecording mode micEnabled env s).recordedBlob = none ∨
    (startRecording mode micEnabled env s).recordedBlob = s.recordedBlob := by
  cases mode <;> cases hd : env.displayOk <;> cases hc : env.cameraOk <;>
    cases micEnabled <;> cases hm : env.micOk <;>
    simp [startRecording, beginSession, startTimer, hd, hc, hm]

theorem startRecording_blob_ok (mode : CaptureMode) (micEnabled : Bool) (env : AcqEnv)
    (s : Studio) (hok : acqOk mode micEnabled env = true) :
    (startRecording mode micEnabled env s).recordedBlob = none := by
  cases mode <;> cases hd : env.displayOk <;> cases hc : env.cameraOk <;>
    cases micEnabled <;> cases hm : env.micOk <;>
    simp_all [acqOk, startRecording, beginSession, startTimer]

theorem pauseRecording_blob (s : Studio) :
    (pauseRecording s).recordedBlob = s.recordedBlob := by
  cases hmr : s.mediaRecorderRef <;> cases hrec : s.isRecording <;>
    cases hp : s.isPaused <;> cases hIr : s.intervalRef <;>
    simp [pauseRecording, startTimer, stopTimer, hmr, hrec, hp, hIr]

theorem tickFire_blob (t : Nat) (s : Studio) :
    (tickFire t s).recordedBlob = s.recordedBlob := by
  unfold tickFire
  split <;> rfl

theorem ondataavailable_blob (c : Chunk) (s : Studio) :
    (ondataavailable c s).recordedBlob = s.recordedBlob := by
  unfold ondataavailable
  split <;> rfl

/-- C1: a stop request issued while the session status is Recording, and
equally one issued while it is Paused, moves the session to Stopped, stops the
elapsed-time tick (the interval is cleared and no timer stays live), produces
the final artifact as the concatenation of all accumulated chunks in arrival
order, and releases the capture handle: every track of the acquired stream is
stopped and the stream reference dropped.  The handlers are total functions,
so neither request throws. -/
theorem stop_finalizes (s : Studio) (hr : Reach s)
    (hst : status s = Status.recording ∨ status s = Status.paused) :
    status (stopRecording s) = Status.stopped ∧
    (stopRecording s).recordedBlob = some s.chunksRef.flatten ∧
    (stopRecording s).intervalRef = none ∧
    (stopRecording s).liveTimers = [] ∧
    (stopRecording s).streamRef = none ∧
    ∀ ids, s.streamRef = some ids → ∀ i ∈ ids,
      ∀ hi : i < (stopRecording s).tracks.length,
        ((stopRecording s).tracks.get ⟨i, hi⟩).stopped = true := by
  obtain ⟨h1, h2, h3, h4, h5, h6, h7, h8, h9⟩ := reach_inv hr
  have hrec : s.isRecording = true := by
    cases hx : s.isRecording
    · exfalso
      cases hbl : s.recordedBlob <;>
        rcases hst with hst | hst <;>
        simp [status, hx, hbl] at hst
    · rfl
  obtain ⟨mr, hmr⟩ := Option.isSome_iff_exists.mp (h9 hrec)
  obtain ⟨ids, hSR⟩ := Option.isSome_iff_exists.mp (h8 hrec)
  cases hIr : s.intervalRef with
  | some t =>
      have hLT : s.liveTimers = [t] := by rw [h4, hIr]; rfl
      rw [stopRecording_eq_rec s mr t ids hmr hIr hSR]
      refine ⟨by simp [status], rfl, rfl, ?_, rfl, ?_⟩
      · show s.liveTimers.erase t = ([] : List Nat)
        rw [hLT]
        simp
      · intro ids' hids' i hi hlt
        have heq : ids = ids' := by
          rw [hSR] at hids'
          exact Option.some.inj hids'
        rw [← heq] at hi
        exact stopped_stopTracksAt ids s.tracks i hlt hi
  | none =>
      have hLT : s.liveTimers = [] := by rw [h4, hIr]; rfl
      rw [stopRecording_eq_paused s mr ids hmr hIr hSR]
      refine ⟨by simp [status], rfl, hIr, hLT, rfl, ?_⟩
      intro ids' hids' i hi hlt
      have heq : ids = ids' := by
        rw [hSR] at hids'
        exact Option.some.inj hids'
      rw [← heq] at hi
      exact stopped_stopTracksAt ids s.tracks i hlt hi

/-- Witness for C1: a concrete reachable recording state with one chunk,
stopped. -/
theorem stop_finalizes_witness :
    status (stopRecording sData) = Status.stopped ∧
    (stopRecording sData).recordedBlob = some [7, 7] ∧
    (stopRecording sData).liveTimers = [] := by
  have hr : Reach sData :=
    Reach.next (Ev.data [7, 7])
      (Reach.next (Ev.start CaptureMode.screen false demoEnv) Reach.init (by decide))
      (by decide)
  have h := stop_finalizes sData hr (Or.inl (by decide))
  refine ⟨h.1, ?_, h.2.2.2.1⟩
  rw [h.2.1]
  rfl

/-- C2: in every reachable state, a pause request while the status is not
Recording, a resume request while the status is not Paused, and a stop request
while the status is Idle leave the whole session state unchanged; the handlers
are total, so none of them throws. -/
theorem redundant_requests_noop (s : Studio) (hr : Reach s) :
    (s.isPaused = false → status s ≠ Status.recording → pauseRecording s = s) ∧
    (s.isPaused = true → status s ≠ Status.paused → pauseRecording s = s) ∧
    (status s = Status.idle → stopRecording s = s) := by
  obtain ⟨h1, h2, h3, h4, h5, h6, h7, h8, h9⟩ := reach_inv hr
  refine ⟨?_, ?_, ?_⟩
  · intro hp hst
    have hb : s.isRecording = false := by
      cases hx : s.isRecording
      · rfl
      · exact absurd (by simp [status, hx, hp]) hst
    cases hmr : s.mediaRecorderRef
    · simp [pauseRecording, hmr]
    · simp [pauseRecording, hmr, hb]
  · intro hp hst
    have hb : s.isRecording = false := by
      cases hx : s.isRecording
      · rfl
      · exact absurd (by simp [status, hx, hp]) hst
    cases hmr : s.mediaRecorderRef
    · simp [pauseRecording, hmr]
    · simp [pauseRecording, hmr, hb]
  · intro hst
    have hb : s.isRecording = false := by
      cases hx : s.isRecording
      · rfl
      · exfalso
        cases hp : s.isPaused <;> simp [status, hx, hp] at hst
    have hblob : s.recordedBlob = none := by
      cases hx : s.recordedBlob with
      | none => rfl
      | some b =>
          exfalso
          simp [status, hb, hx] at hst
    have hmr : s.mediaRecorderRef = none := h3 hb hblob
    simp [stopRecording, hmr]

/-- Witness for C2 at the initial (Idle) state. -/
theorem redundant_requests_noop_witness :
    pauseRecording initialStudio = initialStudio ∧
    stopRecording initialStudio = initialStudio := by
  have h := redundant_requests_noop initialStudio Reach.init
  exact ⟨h.1 rfl (by decide), h.2.2 (by decide)⟩

/-- C3 counterexample: `startTimer` does not check for or cancel a prior tick
source.  Applied to a concrete state that already has one live timer (timer 0),
it installs timer 1 and leaves timer 0 running, so two timers are live. -/
theorem startTimer_no_check_counterexample :
    (startTimer (startTimer initialStudio)).liveTimers = [1, 0] ∧
    ¬ (startTimer (startTimer initialStudio)).liveTimers.length ≤ 1 := by
  decide

/-- C3 (amended): although `startTimer` itself never cancels a prior tick
source, under the UI guards (start only while not recording, pause/resume and
stop only while recording) every reachable state has at most one live timer,
so no guarded sequence of start/pause/resume/stop requests leaves two timers
running concurrently. -/
theorem at_most_one_live_timer (s : Studio) (hr : Reach s) :
    s.liveTimers.length ≤ 1 := by
  obtain ⟨h1, h2, h3, h4, h5, h6, h7, h8, h9⟩ := reach_inv hr
  rw [h4]
  cases s.intervalRef <;> simp

/-- Witness for the amended C3 at a concrete reachable paused state. -/
theorem at_most_one_live_timer_witness : sPaused.liveTimers.length ≤ 1 := by
  have hr : Reach sPaused :=
    Reach.next Ev.pauseResume
      (Reach.next (Ev.data [7, 7])
        (Reach.next (Ev.start CaptureMode.screen false demoEnv) Reach.init (by decide))
        (by decide))
      (by decide)
  exact at_most_one_live_timer sPaused hr

/-- C4 at the failing input: `captureMode = screen`, microphone enabled, the
display capture is granted (two tracks) and the microphone request is then
denied.  The session does remain Idle, but the two tracks of the already
acquired display stream stay unstopped in the pool while no session field
references them: a partially acquired resource remains held, contradicting
the claim. -/
theorem mic_denied_leaks_display_tracks :
    status (startRecording CaptureMode.screen true micDeniedEnv initialStudio) =
      Status.idle ∧
    (startRecording CaptureMode.screen true micDeniedEnv initialStudio).tracks =
      [{ stopped := false }, { stopped := false }] ∧
    (startRecording CaptureMode.screen true micDeniedEnv initialStudio).streamRef =
      none := by
  decide

/-- C5: in every reachable state, a tick firing can change `duration` only
when the status is Recording, and while the status is Paused every tick
firing (those of the interval cleared by the pause request included) leaves
the whole state unchanged. -/
theorem duration_advances_only_recording (s : Studio) (hr : Reach s) :
    (∀ t, (tickFire t s).duration ≠ s.duration → status s = Status.recording) ∧
    (status s = Status.paused → ∀ t, tickFire t s = s) := by
  obtain ⟨h1, h2, h3, h4, h5, h6, h7, h8, h9⟩ := reach_inv hr
  constructor
  · intro t hne
    by_cases hmem : t ∈ s.liveTimers
    · have hsome : s.intervalRef.isSome = true := by
        cases hIr : s.intervalRef
        · exfalso
          rw [h4, hIr] at hmem
          simp at hmem
        · rfl
      obtain ⟨hrec, hp⟩ := h5 hsome
      simp [status, hrec, hp]
    · exact absurd (by simp [tickFire, hmem]) hne
  · intro hst t
    have hp : s.isPaused = true := by
      cases hx : s.isPaused
      · exfalso
        cases hrec : s.isRecording
        · cases hbl : s.recordedBlob <;> simp [status, hrec, hx, hbl] at hst
        · simp [status, hrec, hx] at hst
      · rfl
    have hIr : s.intervalRef = none := by
      cases hx : s.intervalRef
      · rfl
      · have := (h5 (by rw [hx]; rfl)).2
        rw [hp] at this
        cases this
    have hLT : s.liveTimers = [] := by rw [h4, hIr]; rfl
    simp [tickFire, hLT]

/-- Witness for C5: at a concrete reachable paused state, a tick firing of the
cleared interval changes nothing. -/
theorem duration_advances_only_recording_witness : tickFire 0 sPaused = sPaused := by
  have hr : Reach sPaused :=
    Reach.next Ev.pauseResume
      (Reach.next (Ev.data [7, 7])
        (Reach.next (Ev.start CaptureMode.screen false demoEnv) Reach.init (by decide))
        (by decide))
      (by decide)
  exact (duration_advances_only_recording sPaused hr).2 (by decide) 0

/-- C6: in every reachable state the final artifact exists exactly when the
status is Stopped; the only event that materializes an artifact is the stop
request (so it happens only at the transition to Stopped, and never again
since stop is not enabled once stopped); and a successful start request
clears the artifact of a prior session. -/
theorem artifact_iff_stopped (s : Studio) (hr : Reach s) :
    (s.recordedBlob ≠ none ↔ status s = Status.stopped) ∧
    (∀ e, s.recordedBlob = none → (step e s).recordedBlob ≠ none → e = Ev.stop) ∧
    (∀ mode micEnabled env, acqOk mode micEnabled env = true →
        (step (Ev.start mode micEnabled env) s).recordedBlob = none) ∧
    (status s = Status.stopped → ¬ enabled Ev.stop s) := by
  obtain ⟨h1, h2, h3, h4, h5, h6, h7, h8, h9⟩ := reach_inv hr
  refine ⟨⟨?_, ?_⟩, ?_, ?_, ?_⟩
  · intro hb
    cases hbl : s.recordedBlob with
    | none => exact absurd hbl hb
    | some b =>
        cases hrec : s.isRecording
        · simp [status, hrec, hbl]
        · exact absurd (h2 hrec) (by rw [hbl]; exact fun hx => by cases hx)
  · intro hst hbn
    cases hrec : s.isRecording
    · simp [status, hrec, hbn] at hst
    · cases hp : s.isPaused <;> simp [status, hrec, hp] at hst
  · intro e hbn hbs
    cases e with
    | start mode micEnabled env =>
        exfalso
        rcases startRecording_blob mode micEnabled env s with hx | hx
        · exact hbs hx
        · rw [hbn] at hx
          exact hbs hx
    | pauseResume =>
        exfalso
        have := pauseRecording_blob s
        rw [hbn] at this
        exact hbs this
    | stop => rfl
    | tick t =>
        exfalso
        have := tickFire_blob t s
        rw [hbn] at this
        exact hbs this
    | data c =>
        exfalso
        have := ondataavailable_blob c s
        rw [hbn] at this
        exact hbs this
  · intro mode micEnabled env hok
    exact startRecording_blob_ok mode micEnabled env s hok
  · intro hst hen
    have hrec : s.isRecording = true := hen
    cases hp : s.isPaused <;> simp [status, hrec, hp] at hst

/-- Witness for C6: the concrete reachable stopped state holds an artifact and
its status computes to Stopped. -/
theorem artifact_iff_stopped_witness : status sStop = Status.stopped := by
  have hr : Reach sStop :=
    Reach.next Ev.stop
      (Reach.next (Ev.data [7, 7])
        (Reach.next (Ev.start CaptureMode.screen false demoEnv) Reach.init (by decide))
        (by decide))
      (by decide)
  exact (artifact_iff_stopped sStop hr).1.mp (by decide)

/-- C7 at the failing input: the Start button stays enabled while the first
acquisition is still pending (clicking sets no flag before the first await),
so a second click is neither rejected nor ignored and two capture
acquisitions end up in flight concurrently. -/
theorem double_click_two_acquisitions :
    startEnabled { isRecording := false, pendingAcquisitions := 0 } = true ∧
    startEnabled (startClick { isRecording := false, pendingAcquisitions := 0 }) = true ∧
    (startClick (startClick
      { isRecording := false, pendingAcquisitions := 0 })).pendingAcquisitions = 2 := by
  decide

/-- C8: whenever a final artifact exists, the export operation emits exactly
the artifact bytes, leaves the whole state (the artifact included) unchanged,
and a second export emits the same bytes again. -/
theorem export_repeatable (s : Studio) (b : Blob) (h : s.recordedBlob = some b) :
    (downloadRecording s).2 = some b ∧
    (downloadRecording s).1 = s ∧
    (downloadRecording (downloadRecording s).1).2 = some b := by
  simp [downloadRecording, h]

/-- Witness for C8 at the concrete stopped state. -/
theorem export_repeatable_witness :
    (downloadRecording sStop).2 = some [7, 7] ∧
    (downloadRecording sStop).1 = sStop := by
  have h := export_repeatable sStop [7, 7] (by decide)
  exact ⟨h.1, h.2.1⟩

/-- C9: a data-available notification carrying a zero-size buffer leaves the
state unchanged (the chunk is dropped, not appended), and in every reachable
state every accumulated chunk is non-empty, so the final artifact is
assembled only from non-empty chunks. -/
theorem chunks_nonempty (s : Studio) (hr : Reach s) :
    (∀ c : Chunk, c.length = 0 → ondataavailable c s = s) ∧
    (∀ c ∈ s.chunksRef, 0 < c.length) := by
  obtain ⟨h1, h2, h3, h4, h5, h6, h7, h8, h9⟩ := reach_inv hr
  constructor
  · intro c hc
    simp [ondataavailable, hc]
  · exact h6

/-- Witness for C9: at a concrete reachable state with one chunk collected, a
zero-size notification is dropped. -/
theorem chunks_nonempty_witness : ondataavailable [] sData = sData := by
  have hr : Reach sData :=
    Reach.next (Ev.data [7, 7])
      (Reach.next (Ev.start CaptureMode.screen false demoEnv) Reach.init (by decide))
      (by decide)
  exact (chunks_nonempty sData hr).1 [] rfl

/-- C10: invoked with an empty transcript, the transcript export neither fails
nor no-ops: it produces a file made of the header, the timestamp and the
hard-coded sample transcript, the same fixed text for every session state
with an empty transcript (whatever was recorded), and it leaves the state
unchanged. -/
theorem download_sample_when_empty (st : TranscriptState) (now : String)
    (h : st.transcript = "") :
    (downloadTranscript now st).2 =
      some ("Meeting Transcript\nGenerated on: " ++ now ++ "\n\n" ++ sampleTranscript) ∧
    (downloadTranscript now st).1 = st ∧
    (∀ st2 : TranscriptState, st2.transcript = "" →
        (downloadTranscript now st2).2 = (downloadTranscript now st).2) := by
  refine ⟨?_, ?_, ?_⟩
  · simp [downloadTranscript, h]
  · simp [downloadTranscript, h]
  · intro st2 h2
    simp [downloadTranscript, h, h2]

/-- Witness for C10 at a concrete state with an empty transcript and a
recorded blob. -/
theorem download_sample_when_empty_witness :
    (downloadTranscript "now"
      { transcript := "", recordedBlob := some [1], meetingPoints := ["a"] }).2 =
      some ("Meeting Transcript\nGenerated on: " ++ "now" ++ "\n\n" ++ sampleTranscript) ∧
    (downloadTranscript "now"
      { transcript := "", recordedBlob := some [1], meetingPoints := ["a"] }).1 =
      { transcript := "", recordedBlob := some [1], meetingPoints := ["a"] } := by
  have h := download_sample_when_empty
    { transcript := "", recordedBlob := some [1], meetingPoints := ["a"] } "now" rfl
  exact ⟨h.1, h.2.1⟩
